import Mathlib

/-!
# Verification of the `SelfPerformanceEngine` core

Shallow embedding of `src/backend/src/ai/SelfPerformanceEngine.ts`
(the adaptive performance-and-routing layer) and proofs about it.

JavaScript numbers are embedded as exact rationals (`ℚ`); where the code
can produce non-finite values (division by zero), the extended type
`JsNum` with `posInf`/`negInf`/`nan` is used.  Timestamps (`Date.now()`)
are integers.  Mutating methods are embedded in state-passing style: a
method that assigns to a field of `this` returns the updated
`EngineState`; a method with no assignments returns the state unchanged
together with its result.
-/

set_option maxHeartbeats 1000000

namespace SelfPerf

/-- Extended JavaScript number: an exact rational, a signed infinity, or NaN. -/
inductive JsNum where
  | fin (q : ℚ)
  | posInf
  | negInf
  | nan
deriving DecidableEq, Repr

/-- JavaScript `+` on extended numbers (NaN propagates; `Inf + -Inf = NaN`). -/
def JsNum.add : JsNum → JsNum → JsNum
  | .nan, _ => .nan
  | _, .nan => .nan
  | .posInf, .negInf => .nan
  | .negInf, .posInf => .nan
  | .posInf, _ => .posInf
  | _, .posInf => .posInf
  | .negInf, _ => .negInf
  | _, .negInf => .negInf
  | .fin a, .fin b => .fin (a + b)

/-- JavaScript division of finite `a` by finite `b` (IEEE rules at `b = 0`:
`0/0 = NaN`, `a/0 = ±Inf` by the sign of `a`). -/
def jsDivQ (a b : ℚ) : JsNum :=
  if b = 0 then (if a = 0 then .nan else if 0 < a then .posInf else .negInf)
  else .fin (a / b)

/-- JavaScript division of an extended number by a finite number. -/
def JsNum.divQ : JsNum → ℚ → JsNum
  | .fin a, d => jsDivQ a d
  | .posInf, d => if d < 0 then .negInf else .posInf
  | .negInf, d => if d < 0 then .posInf else .negInf
  | .nan, _ => .nan

/-- JavaScript `x * 100` on an extended number. -/
def JsNum.mul100 : JsNum → JsNum
  | .fin a => .fin (a * 100)
  | x => x

/-- JavaScript `x > c` as a boolean (false for NaN, true for `+Inf`). -/
def JsNum.gtB : JsNum → ℚ → Bool
  | .fin a, c => decide (c < a)
  | .posInf, _ => true
  | .negInf, _ => false
  | .nan, _ => false

/-- JavaScript `Math.round`: round half toward positive infinity. -/
def jsRound (x : ℚ) : ℤ := ⌊x + 1/2⌋

/-- Computation `Math.round(x * 10) / 10` on an extended number (`Math.round` maps
NaN and infinities to themselves). -/
def jsRound1 : JsNum → JsNum
  | .fin q => .fin ((jsRound (q * 10) : ℚ) / 10)
  | x => x

/-- Whether an extended number is finite. -/
def JsNum.isFin : JsNum → Bool
  | .fin _ => true
  | _ => false

/-- The rational value of a finite extended number (0 otherwise). -/
def JsNum.toQ : JsNum → ℚ
  | .fin q => q
  | _ => 0

/-- One entry of `os.cpus()[i].times` (integer millisecond counters). -/
structure CpuTimes where
  user : ℕ
  nice : ℕ
  sys : ℕ
  idle : ℕ
  irq : ℕ
deriving DecidableEq, Repr

/-- The host-metrics inputs read by `captureSnapshot`:
`os.cpus()`, `os.totalmem()`, `os.freemem()` (memory in bytes). -/
structure Host where
  cpus : List CpuTimes
  totalmem : ℕ
  freemem : ℕ
deriving DecidableEq, Repr

/-- The `ModelMetrics` record of the source. -/
structure ModelMetrics where
  totalCalls : ℕ
  successCalls : ℕ
  totalTimeMs : ℚ
  lastUsed : ℤ
deriving DecidableEq, Repr

/-- The `PerformanceSnapshot` record of the source. -/
structure PerformanceSnapshot where
  timestamp : ℤ
  cpuUsage : JsNum
  memoryUsedMB : ℤ
  memoryTotalMB : ℤ
  activeRequests : ℤ
  avgResponseTimeMs : ℤ
  errorRate : ℕ
  modelSuccessRates : List (String × ℚ)
deriving DecidableEq, Repr

/-- The mutable fields of the `SelfPerformanceEngine` class (the timer
handle is modelled separately, see `MonitorState`).  `modelMetrics` is a
`Record<string, ModelMetrics>`, embedded as an association list in key
insertion order (JavaScript object key order for these keys). -/
structure EngineState where
  snapshots : List PerformanceSnapshot
  modelMetrics : List (String × ModelMetrics)
  activeRequests : ℤ
  responseTimes : List ℚ
  errors : List ℤ
deriving DecidableEq, Repr

/-- The state of a freshly constructed engine. -/
def initState : EngineState := ⟨[], [], 0, [], []⟩

/-- Method `trackRequestStart()`: increments the active-request counter. -/
def trackRequestStart (s : EngineState) : EngineState :=
  { s with activeRequests := s.activeRequests + 1 }

/-- Method `trackRequestEnd(durationMs, success)`; `now` is `Date.now()`.
Decrements the active counter floored at 0, pushes the duration, on
failure pushes the current time to `errors`, shifts the oldest response
time once the window exceeds 100, and filters `errors` down to
timestamps strictly newer than `now - 60000`. -/
def trackRequestEnd (s : EngineState) (now : ℤ) (durationMs : ℚ)
    (success : Bool) : EngineState :=
  let rts0 := s.responseTimes ++ [durationMs]
  let errs0 := if success then s.errors else s.errors ++ [now]
  let rts := if 100 < rts0.length then rts0.tail else rts0
  let errs := errs0.filter (fun t => decide (now - 60000 < t))
  { s with activeRequests := max 0 (s.activeRequests - 1),
           responseTimes := rts, errors := errs }

/-- Lookup `this.modelMetrics[k]`. -/
def lookupMM (mm : List (String × ModelMetrics)) (k : String) :
    Option ModelMetrics :=
  (mm.find? (fun e => decide (e.1 = k))).map (·.2)

/-- Method `trackModelCall(model, success, durationMs)`; `now` is `Date.now()`.
Lazily creates an all-zero entry for an unseen model (appended at the
end of the key order), then increments its counters. -/
def trackModelCall (s : EngineState) (now : ℤ) (model : String)
    (success : Bool) (durationMs : ℚ) : EngineState :=
  let mm0 := if (lookupMM s.modelMetrics model).isSome then s.modelMetrics
             else s.modelMetrics ++ [(model, ⟨0, 0, 0, 0⟩)]
  let mm := mm0.map (fun e =>
    if e.1 = model then
      (e.1, { totalCalls := e.2.totalCalls + 1,
              successCalls := e.2.successCalls + (if success then 1 else 0),
              totalTimeMs := e.2.totalTimeMs + durationMs,
              lastUsed := now })
    else e)
  { s with modelMetrics := mm }

/-- Sum of the five fields of `cpu.times`
(`Object.values(cpu.times).reduce((a, b) => a + b, 0)`). -/
def cpuTotal (c : CpuTimes) : ℕ := c.user + c.nice + c.sys + c.idle + c.irq

/-- One core's contribution `((total - idle) / total) * 100`. -/
def cpuTermOf (c : CpuTimes) : JsNum :=
  (jsDivQ ((cpuTotal c : ℚ) - (c.idle : ℚ)) (cpuTotal c)).mul100

/-- Expression `cpus.reduce((acc, cpu) => acc + term(cpu), 0) / cpus.length`. -/
def cpuUsageOf (cpus : List CpuTimes) : JsNum :=
  (cpus.foldl (fun (acc : JsNum) c => acc.add (cpuTermOf c))
    (JsNum.fin 0)).divQ (cpus.length : ℚ)

/-- Method `captureSnapshot()`: builds a snapshot from the host metrics and the
current derived values, pushes it onto `snapshots`, and shifts the
oldest snapshot once the history exceeds `MAX_SNAPSHOTS = 1000`.
Returns the updated state and the snapshot. -/
def captureSnapshot (s : EngineState) (now : ℤ) (host : Host) :
    EngineState × PerformanceSnapshot :=
  let memTotal : ℚ := (host.totalmem : ℚ) / (1024 * 1024)
  let memFree : ℚ := (host.freemem : ℚ) / (1024 * 1024)
  let memUsed : ℚ := memTotal - memFree
  let avgResponseTime : ℚ :=
    if 0 < s.responseTimes.length then
      s.responseTimes.sum / (s.responseTimes.length : ℚ)
    else 0
  let snap : PerformanceSnapshot :=
    { timestamp := now,
      cpuUsage := jsRound1 (cpuUsageOf host.cpus),
      memoryUsedMB := jsRound memUsed,
      memoryTotalMB := jsRound memTotal,
      activeRequests := s.activeRequests,
      avgResponseTimeMs := jsRound avgResponseTime,
      errorRate := s.errors.length,
      modelSuccessRates := s.modelMetrics.map (fun e =>
        (e.1, if 0 < e.2.totalCalls then
                (e.2.successCalls : ℚ) / (e.2.totalCalls : ℚ)
              else 0)) }
  let hist0 := s.snapshots ++ [snap]
  let hist := if 1000 < hist0.length then hist0.tail else hist0
  ({ s with snapshots := hist }, snap)

/-- Method `getCurrentMetrics()`: its body is `return this.captureSnapshot()`. -/
def getCurrentMetrics (s : EngineState) (now : ℤ) (host : Host) :
    EngineState × PerformanceSnapshot :=
  captureSnapshot s now host

/-- Method `getHistory()`: `return this.snapshots.slice(-50)` — the method body
contains no assignment, so the state component is unchanged. -/
def getHistory (s : EngineState) : EngineState × List PerformanceSnapshot :=
  (s, s.snapshots.drop (s.snapshots.length - 50))

/-- The task categories accepted by `getBestModel`. -/
inductive TaskType where
  | music
  | video
  | image
  | voice
deriving DecidableEq, Repr

/-- The static `modelsByTask` candidate lists. -/
def modelsByTask : TaskType → List String
  | .music => ["suno-v3.5", "eleven-music-v2", "musicgen-large"]
  | .video => ["kling-3.0", "veo-3", "runway-gen3"]
  | .image => ["flux-1", "sdxl", "dalle-3"]
  | .voice => ["eleven-v3", "eleven-v2", "whisper"]

/-- The rate the sort comparator computes:
`successCalls / (totalCalls || 1)` (0 for an absent model; the sort only
evaluates it on models that passed the presence filter). -/
def codeRate (mm : List (String × ModelMetrics)) (m : String) : ℚ :=
  match lookupMM mm m with
  | some me =>
      (me.successCalls : ℚ) /
        (if me.totalCalls = 0 then 1 else (me.totalCalls : ℚ))
  | none => 0

/-- Stable insertion (descending by `f`): a later element passes over
every earlier element with a rate `≥` its own. -/
def insertByRate (f : String → ℚ) (x : String) :
    List String → List String
  | [] => [x]
  | y :: ys => if f y ≤ f x then x :: y :: ys else y :: insertByRate f x ys

/-- The unique output of a stable comparison sort under the comparator
`(a, b) => rate(b) - rate(a)` (JavaScript `Array.prototype.sort` is
stable): descending by rate, ties in original order. -/
def sortByRateDesc (f : String → ℚ) (l : List String) : List String :=
  l.foldr (insertByRate f) []

/-- Method `getBestModel(taskType)`: filter the static candidates to those with
a `modelMetrics` entry, stable-sort by success rate descending, take the
first, and fall back to the first static candidate when none is tracked
(`[0] || candidates[0]`; every candidate name is a nonempty, hence
truthy, string). -/
def getBestModel (s : EngineState) (taskType : TaskType) : String :=
  let candidates := modelsByTask taskType
  let sorted := sortByRateDesc (codeRate s.modelMetrics)
      (candidates.filter (fun m => (lookupMM s.modelMetrics m).isSome))
  match sorted with
  | m :: _ => m
  | [] => candidates.headD ""

/-- The observable output of `analyseAndAdapt` (which warnings are
logged, and which models the low-performing warning lists). -/
structure Warnings where
  highCPU : Bool
  highMemory : Bool
  highErrorRate : Bool
  lowPerformingModels : List String
deriving DecidableEq, Repr

/-- No warning logged at all. -/
def noWarnings : Warnings := ⟨false, false, false, []⟩

/-- Inhabitant used for the (unreachable) out-of-bounds read
`recent[recent.length - 1]` on an empty list. -/
def defaultSnapshot : PerformanceSnapshot := ⟨0, .fin 0, 0, 0, 0, 0, 0, []⟩

/-- The low-performing-model scan:
`entries.filter(([, m]) => m.totalCalls > 5 && m.successCalls / m.totalCalls < 0.7)`. -/
def lowPerfOf (mm : List (String × ModelMetrics)) : List String :=
  (mm.filter (fun e =>
    decide (5 < e.2.totalCalls) &&
    decide ((e.2.successCalls : ℚ) / (e.2.totalCalls : ℚ) < 7/10))).map (·.1)

/-- Method `analyseAndAdapt()`: on fewer than 3 recent snapshots, returns
early with no warnings; otherwise averages `cpuUsage` and `errorRate`
over `snapshots.slice(-6)`, takes the memory percentage from the last
recent snapshot, and compares against the hardcoded thresholds. -/
def analyseAndAdapt (s : EngineState) : Warnings :=
  let recent := s.snapshots.drop (s.snapshots.length - 6)
  if recent.length < 3 then noWarnings
  else
    let avgCPU := (recent.foldl (fun (a : JsNum) sn => a.add sn.cpuUsage)
        (JsNum.fin 0)).divQ (recent.length : ℚ)
    let avgErrors : ℚ :=
      (recent.foldl (fun a sn => a + (sn.errorRate : ℚ)) 0) /
        (recent.length : ℚ)
    let lastSnap := recent.getLastD defaultSnapshot
    let avgMemPct := (jsDivQ (lastSnap.memoryUsedMB : ℚ)
        (lastSnap.memoryTotalMB : ℚ)).mul100
    { highCPU := avgCPU.gtB 85,
      highMemory := avgMemPct.gtB 85,
      highErrorRate := decide ((5 : ℚ) < avgErrors),
      lowPerformingModels := lowPerfOf s.modelMetrics }

/-- One externally triggered engine operation, carrying the external
inputs (`Date.now()` readings, host metrics) it consumes. -/
inductive Op where
  | reqStart
  | reqEnd (now : ℤ) (durationMs : ℚ) (success : Bool)
  | modelCall (now : ℤ) (model : String) (success : Bool) (durationMs : ℚ)
  | snapshot (now : ℤ) (host : Host)
  | currentMetrics (now : ℤ) (host : Host)
  | history

/-- The state transition of one operation. -/
def step (s : EngineState) : Op → EngineState
  | .reqStart => trackRequestStart s
  | .reqEnd now d succ => trackRequestEnd s now d succ
  | .modelCall now m succ d => trackModelCall s now m succ d
  | .snapshot now h => (captureSnapshot s now h).1
  | .currentMetrics now h => (getCurrentMetrics s now h).1
  | .history => (getHistory s).1

/-- The engine state reached from the initial state by a sequence of
operations. -/
def run (ops : List Op) : EngineState := ops.foldl step initState

/-- Apply a sequence of `trackRequestEnd` calls
(`(now, durationMs, success)` triples). -/
def runEnds (s : EngineState) (l : List (ℤ × ℚ × Bool)) : EngineState :=
  l.foldl (fun st e => trackRequestEnd st e.1 e.2.1 e.2.2) s

/-- The timer-handle discipline of `startMonitoring` / `stopMonitoring`:
`liveTimers` are the interval timers currently scheduled by the runtime,
`monitorInterval` is the engine's stored handle.  `startMonitoring`
schedules a fresh interval and overwrites the handle unconditionally;
`stopMonitoring` clears exactly the timer named by the stored handle, if
any, and nulls the handle. -/
structure MonitorState where
  liveTimers : List ℕ
  nextTimerId : ℕ
  monitorInterval : Option ℕ
deriving DecidableEq, Repr

/-- A process in which no interval timer has been scheduled yet. -/
def monitorInit : MonitorState := ⟨[], 0, none⟩

/-- Method `startMonitoring()`: assigns `this.monitorInterval = setInterval(...)`
without clearing any previous interval. -/
def startMonitoring (m : MonitorState) : MonitorState :=
  { liveTimers := m.liveTimers ++ [m.nextTimerId],
    nextTimerId := m.nextTimerId + 1,
    monitorInterval := some m.nextTimerId }

/-- Method `stopMonitoring()`: when a handle is stored, clears exactly that
interval and nulls the stored handle; otherwise does nothing. -/
def stopMonitoring (m : MonitorState) : MonitorState :=
  match m.monitorInterval with
  | some h => { liveTimers := m.liveTimers.filter (fun t => decide (t ≠ h)),
                nextTimerId := m.nextTimerId,
                monitorInterval := none }
  | none => m

/-- Success rate as the specification defines it:
`successCalls / totalCalls`, 0 if no calls. -/
def specRate (mm : List (String × ModelMetrics)) (m : String) : ℚ :=
  match lookupMM mm m with
  | some me =>
      if me.totalCalls = 0 then 0
      else (me.successCalls : ℚ) / (me.totalCalls : ℚ)
  | none => 0

/-- Whether a model has at least one recorded call. -/
def hasCall (mm : List (String × ModelMetrics)) (m : String) : Bool :=
  match lookupMM mm m with
  | some me => decide (1 ≤ me.totalCalls)
  | none => false

/-- The first element of a list attaining the maximal value of `f`
(`none` on the empty list). -/
def firstMax (f : String → ℚ) : List String → Option String
  | [] => none
  | x :: xs =>
      match firstMax f xs with
      | none => some x
      | some y => if f x < f y then some y else some x

/-- The `snapshots.slice(-6)` view used by the alerting step. -/
def recentOf (s : EngineState) : List PerformanceSnapshot :=
  s.snapshots.drop (s.snapshots.length - 6)

/-- Mean of the (finite) recent CPU readings. -/
def cpuMean (s : EngineState) : ℚ :=
  ((recentOf s).map (fun sn => sn.cpuUsage.toQ)).sum / ((recentOf s).length : ℚ)

/-- Mean of the recent error counts. -/
def errMean (s : EngineState) : ℚ :=
  ((recentOf s).map (fun sn => (sn.errorRate : ℚ))).sum /
    ((recentOf s).length : ℚ)

/-- Memory-used percentage of the latest recent snapshot. -/
def memPct (s : EngineState) : ℚ :=
  (((recentOf s).getLastD defaultSnapshot).memoryUsedMB : ℚ) /
    (((recentOf s).getLastD defaultSnapshot).memoryTotalMB : ℚ) * 100

/-- A concrete host: one core at 50% usage, 2 MB total, 1 MB free. -/
def host0 : Host := ⟨[⟨4, 0, 0, 4, 0⟩], 2 * 1024 * 1024, 1024 * 1024⟩

/-- A host whose CPU list is unavailable (`os.cpus()` returns `[]`). -/
def hostNoCpu : Host := ⟨[], 2 * 1024 * 1024, 1024 * 1024⟩

/-- Provider A (`suno-v3.5`) with 5 calls / 4 successes and provider B
(`eleven-music-v2`) with 5 calls / 2 successes. -/
def exampleAB : EngineState :=
  { initState with modelMetrics :=
      [("suno-v3.5", ⟨5, 4, 0, 0⟩), ("eleven-music-v2", ⟨5, 2, 0, 0⟩)] }

/-- A concrete quiet snapshot (CPU 50%, 1 of 2 MB used, no errors). -/
def snapZero : PerformanceSnapshot := ⟨0, .fin 50, 1, 2, 0, 0, 0, []⟩

/-- A state with three snapshots of history and three providers, one of
them (`flux-1`, 6 calls / 3 successes) low-performing. -/
def stateThree : EngineState :=
  ⟨[snapZero, snapZero, snapZero],
   [("flux-1", ⟨6, 3, 0, 0⟩), ("sdxl", ⟨6, 6, 0, 0⟩),
    ("dalle-3", ⟨5, 0, 0, 0⟩)], 0, [], []⟩

/-- A state holding 51 snapshots of history. -/
def stateFifty1 : EngineState :=
  { initState with snapshots := List.replicate 51 defaultSnapshot }

/-- A concrete 101-element input for the response-time window:
durations 0, 1, …, 100. -/
def ends101 : List (ℤ × ℚ × Bool) :=
  (List.range 101).map (fun n : ℕ => ((0 : ℤ), (n : ℚ), true))




/-! ## Helper lemmas -/

theorem lookupMM_eq_none {mm : List (String × ModelMetrics)} {k : String} :
    lookupMM mm k = none ↔ k ∉ mm.map Prod.fst := by
  simp only [lookupMM, Option.map_eq_none', List.find?_eq_none,
    decide_eq_true_eq, List.mem_map]
  constructor
  · rintro h ⟨e, he, rfl⟩
    exact h e he rfl
  · rintro h e he hk
    exact h ⟨e, he, hk⟩

theorem lookupMM_mem {mm : List (String × ModelMetrics)} {k : String}
    {me : ModelMetrics} (h : lookupMM mm k = some me) : (k, me) ∈ mm := by
  simp only [lookupMM, Option.map_eq_some'] at h
  obtain ⟨e, he, h2⟩ := h
  have h1 := List.find?_some he
  have hmem := List.mem_of_find?_eq_some he
  simp only [decide_eq_true_eq] at h1
  have he2 : e = (k, me) := by
    obtain ⟨e1, e2⟩ := e
    simp only at h1 h2
    rw [h1, h2]
  rwa [he2] at hmem

/-- A stop step never kills a timer other than the stored handle, and
never installs a stale handle. -/
theorem stopMonitoring_preserves {t : ℕ} {m : MonitorState}
    (h : t ∈ m.liveTimers ∧ m.monitorInterval ≠ some t) :
    t ∈ (stopMonitoring m).liveTimers ∧
      (stopMonitoring m).monitorInterval ≠ some t := by
  obtain ⟨hmem, hne⟩ := h
  cases hh : m.monitorInterval with
  | none =>
      constructor
      · simp [stopMonitoring, hh, hmem]
      · rw [hh] at hne
        simp only [stopMonitoring, hh]
        exact hne
  | some a =>
      have hta : t ≠ a := fun h => hne (by rw [hh, h])
      constructor
      · simp [stopMonitoring, hh, List.mem_filter, hmem, hta]
      · simp [stopMonitoring, hh]

/-! ## C10: the second `startMonitoring` leaks the first timer -/

/-- C10: `startMonitoring` unconditionally overwrites the stored timer
handle.  After two starts without an intervening stop, the first timer
(id `m.nextTimerId`) is still scheduled but the stored handle names the
second timer, and no sequence of `stopMonitoring` calls ever clears the
first timer. -/
theorem c10_timer_handle_leak (m : MonitorState) :
    m.nextTimerId ∈ (startMonitoring (startMonitoring m)).liveTimers ∧
    (startMonitoring (startMonitoring m)).monitorInterval =
      some (m.nextTimerId + 1) ∧
    ∀ k : ℕ, m.nextTimerId ∈
      (stopMonitoring^[k] (startMonitoring (startMonitoring m))).liveTimers := by
  set t := m.nextTimerId with ht
  have hm2live : t ∈ (startMonitoring (startMonitoring m)).liveTimers := by
    simp [startMonitoring]
  have hm2h : (startMonitoring (startMonitoring m)).monitorInterval =
      some (t + 1) := by
    simp [startMonitoring]
  refine ⟨hm2live, hm2h, ?_⟩
  intro k
  have key : ∀ k : ℕ,
      t ∈ (stopMonitoring^[k] (startMonitoring (startMonitoring m))).liveTimers ∧
      (stopMonitoring^[k]
          (startMonitoring (startMonitoring m))).monitorInterval ≠
        some t := by
    intro k
    induction k with
    | zero =>
        refine ⟨hm2live, ?_⟩
        rw [Function.iterate_zero_apply, hm2h]
        simp
    | succ n ih =>
        rw [Function.iterate_succ_apply']
        exact stopMonitoring_preserves ih
  exact (key k).1

/-! ## C5: empty CPU list produces NaN, not zero -/

/-- C5 (code bug): when `os.cpus()` is empty the code computes
`0 / 0 = NaN` for `cpuUsage` and stores NaN in the snapshot instead of
substituting zero; the snapshot is still appended to the history. -/
theorem c5_nan_on_empty_cpus :
    (captureSnapshot initState 0 hostNoCpu).2.cpuUsage = JsNum.nan ∧
    (captureSnapshot initState 0 hostNoCpu).2.cpuUsage ≠ JsNum.fin 0 ∧
    (captureSnapshot initState 0 hostNoCpu).1.snapshots.length = 1 := by
  have h : (captureSnapshot initState 0 hostNoCpu).2.cpuUsage = JsNum.nan := by
    simp [captureSnapshot, hostNoCpu, cpuUsageOf, JsNum.divQ, jsDivQ, jsRound1]
  refine ⟨h, by rw [h]; simp, by simp [captureSnapshot, initState]⟩



/-! ## C3: error-window pruning happens on `trackRequestEnd`, not on
snapshot capture -/

/-- C3 (counterexample): one failed request is recorded at time 0; a
snapshot captured at time 61000 (with no intervening `trackRequestEnd`)
reports `errorRate = 1`, while the number of recorded failures whose
timestamps lie within the 60 seconds before the capture time is 0.  So a
snapshot's `errorRate` is not, in general, the failure count of the
trailing 60-second window at capture time. -/
theorem c3_counterexample :
    (captureSnapshot (trackRequestEnd initState 0 100 false)
        61000 host0).2.errorRate = 1 ∧
    (((trackRequestEnd initState 0 100 false).errors.filter
        (fun t => decide ((61000 : ℤ) - 60000 < t))).length = 0) := by
  constructor
  · simp [captureSnapshot, trackRequestEnd, initState]
  · simp [trackRequestEnd, initState]

/-- C3 (amended): the stored error window is pruned to the trailing
60-second window on each `trackRequestEnd` (the only accessor that
prunes), not on snapshot capture: after `trackRequestEnd` at time `now`,
the stored timestamps are exactly the previously stored ones, plus `now`
on failure, restricted to `(now - 60000, ∞)`; a snapshot's `errorRate`
equals the length of the stored window as-is at capture time; and after
failure recordings followed by a 61-second delay, the window observed
at the next `trackRequestEnd` is empty. -/
theorem c3_amended_pruning :
    (∀ (s : EngineState) (now : ℤ) (d : ℚ) (succ : Bool) (t : ℤ),
      t ∈ (trackRequestEnd s now d succ).errors ↔
        ((t ∈ s.errors ∨ (succ = false ∧ t = now)) ∧ now - 60000 < t)) ∧
    (∀ (s : EngineState) (now : ℤ) (host : Host),
      (captureSnapshot s now host).2.errorRate = s.errors.length) ∧
    (trackRequestEnd (trackRequestEnd initState 0 100 false)
        61000 50 true).errors = [] := by
  refine ⟨?_, ?_, ?_⟩
  · intro s now d succ t
    have hnow : now - 60000 < now := by omega
    cases succ with
    | true => simp [trackRequestEnd, List.mem_filter]
    | false =>
        simp [trackRequestEnd, List.mem_filter]
        constructor
        · rintro (⟨h1, h2⟩ | rfl)
          · exact ⟨Or.inl h1, h2⟩
          · exact ⟨Or.inr rfl, hnow⟩
        · rintro ⟨h1 | rfl, h2⟩
          · exact Or.inl ⟨h1, h2⟩
          · exact Or.inr rfl
  · intro s now host
    simp [captureSnapshot]
  · simp [trackRequestEnd, initState]

/-! ## C4: `getHistory` is read-only, but `getCurrentMetrics` mutates -/

/-- C4 (counterexample): calling `getCurrentMetrics` on the initial
state appends a snapshot, so the engine state is changed (the stored
history grows from 0 to 1 snapshots). -/
theorem c4_counterexample :
    (getCurrentMetrics initState 0 host0).1 ≠ initState ∧
    (getCurrentMetrics initState 0 host0).1.snapshots.length = 1 ∧
    initState.snapshots.length = 0 := by
  refine ⟨?_, ?_, ?_⟩
  · intro h
    have := congrArg (fun st => st.snapshots.length) h
    simp [getCurrentMetrics, captureSnapshot, initState] at this
  · simp [getCurrentMetrics, captureSnapshot, initState]
  · simp [initState]

/-- C4 (amended): `getHistory` is read-only; `getCurrentMetrics`
captures a fresh snapshot and appends it to the snapshot history
(evicting the oldest entry when the capacity 1000 is exceeded) but
leaves the per-provider metrics, active request count, response-time
window and error window unchanged. -/
theorem c4_amended_frame (s : EngineState) (now : ℤ) (host : Host) :
    (getHistory s).1 = s ∧
    (getCurrentMetrics s now host).1.modelMetrics = s.modelMetrics ∧
    (getCurrentMetrics s now host).1.activeRequests = s.activeRequests ∧
    (getCurrentMetrics s now host).1.responseTimes = s.responseTimes ∧
    (getCurrentMetrics s now host).1.errors = s.errors ∧
    ((getCurrentMetrics s now host).1.snapshots =
        s.snapshots ++ [(getCurrentMetrics s now host).2] ∨
      (getCurrentMetrics s now host).1.snapshots =
        (s.snapshots ++ [(getCurrentMetrics s now host).2]).tail) := by
  refine ⟨rfl, rfl, rfl, rfl, rfl, ?_⟩
  have hs : (getCurrentMetrics s now host).1.snapshots =
      (if 1000 < (s.snapshots ++ [(getCurrentMetrics s now host).2]).length
       then (s.snapshots ++ [(getCurrentMetrics s now host).2]).tail
       else (s.snapshots ++ [(getCurrentMetrics s now host).2])) := rfl
  rw [hs]
  by_cases h : 1000 < (s.snapshots ++ [(getCurrentMetrics s now host).2]).length
  · right
    rw [if_pos h]
  · left
    rw [if_neg h]

/-! ## C6: `getHistory` takes no count and returns the last 50 -/

/-- C6 (counterexample): `getHistory` accepts no count parameter; on a
history of 51 snapshots it returns 50 snapshots, so it cannot return
"the most recent n" for n = 51. -/
theorem c6_counterexample :
    (getHistory stateFifty1).2.length = 50 ∧
    stateFifty1.snapshots.length = 51 := by
  constructor
  · simp [getHistory, stateFifty1, initState]
  · simp [stateFifty1, initState]

/-- C6 (amended): `getHistory` takes no count argument; it returns the
most recent 50 snapshots (all of them when fewer than 50 exist) as a
trailing segment of the stored history, in stored (chronological,
oldest-to-newest) order, without modifying the engine state. -/
theorem c6_amended_getHistory (s : EngineState) :
    (getHistory s).1 = s ∧
    (getHistory s).2.length = min 50 s.snapshots.length ∧
    List.IsSuffix (getHistory s).2 s.snapshots := by
  refine ⟨rfl, ?_, ?_⟩
  · simp only [getHistory, List.length_drop]
    omega
  · exact List.drop_suffix _ _



/-! ## C2: state invariants along every operation sequence -/

/-- The inductive invariant of the engine state: per-entry counter
sanity, nonnegative active counter, bounded windows, and unique
provider keys. -/
def EngineInv (s : EngineState) : Prop :=
  (∀ e ∈ s.modelMetrics,
      e.2.successCalls ≤ e.2.totalCalls ∧ 1 ≤ e.2.totalCalls) ∧
  0 ≤ s.activeRequests ∧
  s.snapshots.length ≤ 1000 ∧
  s.responseTimes.length ≤ 100 ∧
  (s.modelMetrics.map Prod.fst).Nodup

theorem engineInv_init : EngineInv initState := by
  refine ⟨?_, ?_, ?_, ?_, ?_⟩ <;> simp [initState, EngineInv]

theorem engineInv_trackRequestEnd {s : EngineState} (h : EngineInv s)
    (now : ℤ) (d : ℚ) (succ : Bool) :
    EngineInv (trackRequestEnd s now d succ) := by
  obtain ⟨hmm, hact, hsnap, hrts, hnd⟩ := h
  refine ⟨hmm, ?_, hsnap, ?_, hnd⟩
  · simp [trackRequestEnd]
  · show (if 100 < (s.responseTimes ++ [d]).length
        then (s.responseTimes ++ [d]).tail
        else s.responseTimes ++ [d]).length ≤ 100
    by_cases hlen : 100 < (s.responseTimes ++ [d]).length
    · rw [if_pos hlen]
      simp only [List.length_tail, List.length_append, List.length_singleton]
      omega
    · rw [if_neg hlen]
      omega

theorem engineInv_trackModelCall {s : EngineState} (h : EngineInv s)
    (now : ℤ) (model : String) (succ : Bool) (d : ℚ) :
    EngineInv (trackModelCall s now model succ d) := by
  obtain ⟨hmm, hact, hsnap, hrts, hnd⟩ := h
  set mm0 := if (lookupMM s.modelMetrics model).isSome then s.modelMetrics
             else s.modelMetrics ++ [(model, ⟨0, 0, 0, 0⟩)] with hmm0
  have hmm0good : ∀ e ∈ mm0,
      e.2.successCalls ≤ e.2.totalCalls ∧ (e.1 ≠ model → 1 ≤ e.2.totalCalls) := by
    intro e he
    rw [hmm0] at he
    by_cases hl : (lookupMM s.modelMetrics model).isSome
    · rw [if_pos hl] at he
      exact ⟨(hmm e he).1, fun _ => (hmm e he).2⟩
    · rw [if_neg hl] at he
      rcases List.mem_append.1 he with h1 | h1
      · exact ⟨(hmm e h1).1, fun _ => (hmm e h1).2⟩
      · simp only [List.mem_singleton] at h1
        subst h1
        exact ⟨le_refl 0, fun hne => absurd rfl hne⟩
  have hmm0nd : (mm0.map Prod.fst).Nodup := by
    rw [hmm0]
    by_cases hl : (lookupMM s.modelMetrics model).isSome
    · rw [if_pos hl]; exact hnd
    · rw [if_neg hl]
      have hnone : lookupMM s.modelMetrics model = none :=
        Option.not_isSome_iff_eq_none.1 hl
      have hnotin : model ∉ s.modelMetrics.map Prod.fst :=
        lookupMM_eq_none.1 hnone
      simp only [List.map_append, List.map_cons, List.map_nil]
      rw [List.nodup_append]
      refine ⟨hnd, List.nodup_singleton _, ?_⟩
      intro a ha hb
      simp only [List.mem_singleton] at hb
      subst hb
      exact hnotin ha
  constructor
  · intro e he
    simp only [trackModelCall] at he
    rw [← hmm0] at he
    rcases List.mem_map.1 he with ⟨e0, he0, hupd⟩
    by_cases heq : e0.1 = model
    · rw [if_pos heq] at hupd
      subst hupd
      have := hmm0good e0 he0
      constructor
      · simp only
        cases succ <;> simp <;> omega
      · simp
    · rw [if_neg heq] at hupd
      subst hupd
      have := hmm0good e0 he0
      exact ⟨this.1, this.2 heq⟩
  refine ⟨hact, hsnap, hrts, ?_⟩
  · show ((mm0.map fun e =>
        if e.1 = model then
          (e.1, (⟨e.2.totalCalls + 1,
            e.2.successCalls + (if succ then 1 else 0),
            e.2.totalTimeMs + d, now⟩ : ModelMetrics))
        else e).map Prod.fst).Nodup
    have hkeys : (mm0.map fun e =>
        if e.1 = model then
          (e.1, (⟨e.2.totalCalls + 1,
            e.2.successCalls + (if succ then 1 else 0),
            e.2.totalTimeMs + d, now⟩ : ModelMetrics))
        else e).map Prod.fst = mm0.map Prod.fst := by
      rw [List.map_map]
      apply List.map_congr_left
      intro e he
      by_cases heq : e.1 = model
      · simp [heq]
      · simp [heq]
    rw [hkeys]
    exact hmm0nd

theorem engineInv_captureSnapshot {s : EngineState} (h : EngineInv s)
    (now : ℤ) (host : Host) : EngineInv (captureSnapshot s now host).1 := by
  obtain ⟨hmm, hact, hsnap, hrts, hnd⟩ := h
  refine ⟨hmm, hact, ?_, hrts, hnd⟩
  show (if 1000 < (s.snapshots ++ [(captureSnapshot s now host).2]).length
      then (s.snapshots ++ [(captureSnapshot s now host).2]).tail
      else s.snapshots ++ [(captureSnapshot s now host).2]).length ≤ 1000
  by_cases hlen : 1000 < (s.snapshots ++ [(captureSnapshot s now host).2]).length
  · rw [if_pos hlen]
    simp only [List.length_tail, List.length_append, List.length_singleton]
    omega
  · rw [if_neg hlen]
    omega

theorem engineInv_step {s : EngineState} (h : EngineInv s) (op : Op) :
    EngineInv (step s op) := by
  cases op with
  | reqStart =>
      obtain ⟨hmm, hact, hsnap, hrts, hnd⟩ := h
      exact ⟨hmm, by simp [step, trackRequestStart]; omega, hsnap, hrts, hnd⟩
  | reqEnd now d succ => exact engineInv_trackRequestEnd h now d succ
  | modelCall now m succ d => exact engineInv_trackModelCall h now m succ d
  | snapshot now host => exact engineInv_captureSnapshot h now host
  | currentMetrics now host => exact engineInv_captureSnapshot h now host
  | history => exact h

theorem engineInv_run (ops : List Op) : EngineInv (run ops) := by
  have key : ∀ (l : List Op) (s : EngineState), EngineInv s →
      EngineInv (l.foldl step s) := by
    intro l
    induction l with
    | nil => intro s hs; exact hs
    | cons op rest ih =>
        intro s hs
        exact ih (step s op) (engineInv_step hs op)
  exact key ops initState engineInv_init

/-- C2: along every operation sequence from the initial state, every
stored provider's success rate (`successCalls / totalCalls`, 0 if no
calls) lies in [0, 1], the active request count is nonnegative, the
snapshot history never exceeds its capacity 1000, and the response-time
window never exceeds its capacity 100. -/
theorem c2_state_invariants (ops : List Op) :
    (∀ e ∈ (run ops).modelMetrics,
      0 ≤ (if e.2.totalCalls = 0 then 0
           else (e.2.successCalls : ℚ) / (e.2.totalCalls : ℚ)) ∧
      (if e.2.totalCalls = 0 then 0
           else (e.2.successCalls : ℚ) / (e.2.totalCalls : ℚ)) ≤ 1) ∧
    0 ≤ (run ops).activeRequests ∧
    (run ops).snapshots.length ≤ 1000 ∧
    (run ops).responseTimes.length ≤ 100 := by
  obtain ⟨hmm, hact, hsnap, hrts, -⟩ := engineInv_run ops
  refine ⟨?_, hact, hsnap, hrts⟩
  intro e he
  obtain ⟨hle, hpos⟩ := hmm e he
  by_cases h0 : e.2.totalCalls = 0
  · rw [if_pos h0]
    norm_num
  · rw [if_neg h0]
    have htpos : (0 : ℚ) < (e.2.totalCalls : ℚ) := by
      exact_mod_cast Nat.pos_of_ne_zero h0
    constructor
    · positivity
    · rw [div_le_one htpos]
      exact_mod_cast hle

/-! ## C7: the response-time window is a capacity-100 FIFO -/

theorem mem_of_getLast?_eq {z : List ℚ} {d : ℚ}
    (h : z.getLast? = some d) : d ∈ z := by
  induction z with
  | nil => simp at h
  | cons a t ih =>
      cases t with
      | nil =>
          simp at h
          simp [h]
      | cons b t' =>
          rw [List.getLast?_cons_cons] at h
          exact List.mem_cons_of_mem a (ih h)

theorem getLast?_mem_drop_one {z : List ℚ} {d : ℚ}
    (hlen : 2 ≤ z.length) (h : z.getLast? = some d) : d ∈ z.drop 1 := by
  match z, hlen with
  | a :: b :: t, _ =>
      rw [List.getLast?_cons_cons] at h
      simpa using mem_of_getLast?_eq h

/-- FIFO characterisation of the response-time window: running any
sequence of `trackRequestEnd` calls keeps exactly the trailing
100-element suffix of all durations ever pushed. -/
theorem runEnds_responseTimes (l : List (ℤ × ℚ × Bool)) :
    ∀ s : EngineState, s.responseTimes.length ≤ 100 →
      (runEnds s l).responseTimes =
        (s.responseTimes ++ l.map (fun e => e.2.1)).drop
          ((s.responseTimes.length + l.length) - 100) := by
  induction l with
  | nil =>
      intro s hs
      have h0 : (s.responseTimes.length + ([] : List (ℤ × ℚ × Bool)).length)
          - 100 = 0 := by
        simp only [List.length_nil]
        omega
      rw [h0]
      simp [runEnds]
  | cons e rest ih =>
      intro s hs
      have hstep : runEnds s (e :: rest) =
          runEnds (trackRequestEnd s e.1 e.2.1 e.2.2) rest := rfl
      rw [hstep]
      have hrts' : (trackRequestEnd s e.1 e.2.1 e.2.2).responseTimes =
          if 100 < (s.responseTimes ++ [e.2.1]).length
          then (s.responseTimes ++ [e.2.1]).tail
          else s.responseTimes ++ [e.2.1] := rfl
      by_cases hc : 100 < (s.responseTimes ++ [e.2.1]).length
      · have h100 : s.responseTimes.length = 100 := by
          simp only [List.length_append, List.length_cons,
            List.length_nil] at hc
          omega
        have hrts2 : (trackRequestEnd s e.1 e.2.1 e.2.2).responseTimes =
            (s.responseTimes ++ [e.2.1]).drop 1 := by
          rw [hrts', if_pos hc, List.drop_one]
        have hlen2 : ((s.responseTimes ++ [e.2.1]).drop 1).length = 100 := by
          simp [h100]
        have hlen' : (trackRequestEnd s e.1 e.2.1 e.2.2).responseTimes.length
            ≤ 100 := by
          rw [hrts2, hlen2]
        have hih := ih (trackRequestEnd s e.1 e.2.1 e.2.2) hlen'
        rw [hrts2, hlen2] at hih
        have hA : (s.responseTimes ++ [e.2.1]).drop 1 ++
            rest.map (fun e => e.2.1) =
            ((s.responseTimes ++ [e.2.1]) ++
              rest.map (fun e => e.2.1)).drop 1 :=
          (List.drop_append_of_le_length (by simp)).symm
        rw [hA, List.drop_drop] at hih
        rw [hih]
        have hidx : 1 + (100 + rest.length - 100) =
            (s.responseTimes.length + (e :: rest).length) - 100 := by
          rw [h100]
          simp only [List.length_cons]
          omega
        rw [hidx]
        have hlist : (s.responseTimes ++ [e.2.1]) ++
            rest.map (fun e => e.2.1) =
            s.responseTimes ++ (e :: rest).map (fun e => e.2.1) := by
          simp
        rw [hlist]
      · have hrts2 : (trackRequestEnd s e.1 e.2.1 e.2.2).responseTimes =
            s.responseTimes ++ [e.2.1] := by
          rw [hrts', if_neg hc]
        have hlen' : (trackRequestEnd s e.1 e.2.1 e.2.2).responseTimes.length
            ≤ 100 := by
          rw [hrts2]
          simp only [List.length_append, List.length_cons,
            List.length_nil] at hc ⊢
          omega
        have hih := ih (trackRequestEnd s e.1 e.2.1 e.2.2) hlen'
        rw [hrts2] at hih
        rw [hih]
        have hidx : (s.responseTimes ++ [e.2.1]).length + rest.length - 100 =
            (s.responseTimes.length + (e :: rest).length) - 100 := by
          simp only [List.length_append, List.length_cons, List.length_nil]
          omega
        rw [hidx]
        have hlist : (s.responseTimes ++ [e.2.1]) ++
            rest.map (fun e => e.2.1) =
            s.responseTimes ++ (e :: rest).map (fun e => e.2.1) := by
          simp
        rw [hlist]

/-- C7: the response-time window is a FIFO buffer of capacity 100.
From the initial state, 101 `trackRequestEnd` calls leave exactly the
last 100 pushed durations, in push order; hence the first-inserted
duration is absent (whenever it does not recur later) and the
most-recently inserted duration is present. -/
theorem c7_response_window_fifo (l : List (ℤ × ℚ × Bool))
    (hlen : l.length = 101) :
    (runEnds initState l).responseTimes =
      (l.map (fun e => e.2.1)).drop 1 ∧
    (runEnds initState l).responseTimes.length = 100 ∧
    (∀ d : ℚ, (l.map (fun e => e.2.1)).head? = some d →
      d ∉ (l.map (fun e => e.2.1)).drop 1 →
      d ∉ (runEnds initState l).responseTimes) ∧
    (∀ d : ℚ, (l.map (fun e => e.2.1)).getLast? = some d →
      d ∈ (runEnds initState l).responseTimes) := by
  have hmain : (runEnds initState l).responseTimes =
      (l.map (fun e => e.2.1)).drop 1 := by
    have h := runEnds_responseTimes l initState (by simp [initState])
    have h0 : (initState.responseTimes.length + l.length) - 100 = 1 := by
      simp [initState, hlen]
    rw [h0] at h
    have h1 : initState.responseTimes ++ l.map (fun e => e.2.1) =
        l.map (fun e => e.2.1) := by simp [initState]
    rw [h1] at h
    exact h
  refine ⟨hmain, ?_, ?_, ?_⟩
  · rw [hmain]
    simp [hlen]
  · intro d hh hnot
    rw [hmain]
    exact hnot
  · intro d hlast
    rw [hmain]
    refine getLast?_mem_drop_one ?_ ?_
    · rw [List.length_map, hlen]
      omega
    · exact hlast

/-- Witness for C7 at the concrete input `ends101`
(durations 0, 1, …, 100). -/
theorem c7_witness :
    (runEnds initState ends101).responseTimes =
      (ends101.map (fun e => e.2.1)).drop 1 ∧
    (runEnds initState ends101).responseTimes.length = 100 ∧
    (∀ d : ℚ, (ends101.map (fun e => e.2.1)).head? = some d →
      d ∉ (ends101.map (fun e => e.2.1)).drop 1 →
      d ∉ (runEnds initState ends101).responseTimes) ∧
    (∀ d : ℚ, (ends101.map (fun e => e.2.1)).getLast? = some d →
      d ∈ (runEnds initState ends101).responseTimes) :=
  c7_response_window_fifo ends101
    (by rw [ends101, List.length_map, List.length_range])

/-! ## C1: `getBestModel` returns the first best-rate tracked candidate -/

theorem insertByRate_head? (f : String → ℚ) (x : String) (l : List String) :
    (insertByRate f x l).head? =
      some (match l.head? with
            | none => x
            | some y => if f y ≤ f x then x else y) := by
  cases l with
  | nil => rfl
  | cons y ys =>
      by_cases h : f y ≤ f x
      · simp [insertByRate, h]
      · simp [insertByRate, h]

theorem sortByRateDesc_head? (f : String → ℚ) (l : List String) :
    (sortByRateDesc f l).head? = firstMax f l := by
  induction l with
  | nil => rfl
  | cons x xs ih =>
      have hstep : sortByRateDesc f (x :: xs) =
          insertByRate f x (sortByRateDesc f xs) := rfl
      rw [hstep, insertByRate_head?, ih]
      cases hfm : firstMax f xs with
      | none => simp [firstMax, hfm]
      | some y =>
          by_cases h : f y ≤ f x
          · simp only [firstMax, hfm]
            rw [if_pos h, if_neg (not_lt.2 h)]
          · simp only [firstMax, hfm]
            rw [if_neg h, if_pos (not_le.1 h)]

theorem codeRate_eq_specRate {mm : List (String × ModelMetrics)}
    (h : ∀ e ∈ mm, 1 ≤ e.2.totalCalls) :
    codeRate mm = specRate mm := by
  funext m
  unfold codeRate specRate
  cases hl : lookupMM mm m with
  | none => rfl
  | some me =>
      have h1 := h (m, me) (lookupMM_mem hl)
      simp only at h1
      have hne : me.totalCalls ≠ 0 := by omega
      show (me.successCalls : ℚ) /
          (if me.totalCalls = 0 then 1 else (me.totalCalls : ℚ)) =
        if me.totalCalls = 0 then 0
        else (me.successCalls : ℚ) / (me.totalCalls : ℚ)
      rw [if_neg hne, if_neg hne]

theorem filter_hasCall_eq {mm : List (String × ModelMetrics)}
    (h : ∀ e ∈ mm, 1 ≤ e.2.totalCalls) (cands : List String) :
    cands.filter (fun m => (lookupMM mm m).isSome) =
      cands.filter (fun m => hasCall mm m) := by
  apply List.filter_congr
  intro m _
  unfold hasCall
  cases hl : lookupMM mm m with
  | none => simp
  | some me =>
      have h1 := h (m, me) (lookupMM_mem hl)
      simp only at h1
      simp [h1]

theorem getBestModel_head (s : EngineState) (t : TaskType) :
    getBestModel s t =
      ((sortByRateDesc (codeRate s.modelMetrics)
        ((modelsByTask t).filter
          (fun m => (lookupMM s.modelMetrics m).isSome))).head?).getD
        ((modelsByTask t).headD "") := by
  simp only [getBestModel]
  cases h : sortByRateDesc (codeRate s.modelMetrics)
      ((modelsByTask t).filter
        (fun m => (lookupMM s.modelMetrics m).isSome)) with
  | nil => rfl
  | cons m rest => rfl

/-- C1: for every task category and every state whose stored metrics all
have at least one recorded call (true of every reachable state),
`getBestModel` returns the first candidate, in static-list order, among
the tracked candidates (those with a recorded call) that attains the
maximal success rate `successCalls / totalCalls`; when no candidate is
tracked it returns the first entry of the static list.  In particular,
with provider A at 4/5 successes and provider B at 2/5, it returns A. -/
theorem c1_getBestModel_best_rate :
    (∀ (s : EngineState) (t : TaskType),
      (∀ e ∈ s.modelMetrics, 1 ≤ e.2.totalCalls) →
      getBestModel s t =
        (firstMax (specRate s.modelMetrics)
          ((modelsByTask t).filter
            (fun m => hasCall s.modelMetrics m))).getD
          ((modelsByTask t).headD "")) ∧
    getBestModel exampleAB TaskType.music = "suno-v3.5" := by
  have hgen : ∀ (s : EngineState) (t : TaskType),
      (∀ e ∈ s.modelMetrics, 1 ≤ e.2.totalCalls) →
      getBestModel s t =
        (firstMax (specRate s.modelMetrics)
          ((modelsByTask t).filter
            (fun m => hasCall s.modelMetrics m))).getD
          ((modelsByTask t).headD "") := by
    intro s t h
    rw [getBestModel_head, filter_hasCall_eq h, codeRate_eq_specRate h,
      sortByRateDesc_head?]
  refine ⟨hgen, ?_⟩
  have e1 : decide ("suno-v3.5" = "eleven-music-v2") = false := by rfl
  rw [hgen exampleAB TaskType.music (by decide)]
  norm_num [exampleAB, initState, modelsByTask, hasCall, lookupMM, firstMax,
    specRate, List.filter, List.find?, e1]

/-- Witness for C1 at the concrete state `exampleAB` (A: 5 calls /
4 successes; B: 5 calls / 2 successes) and the music category. -/
theorem c1_witness :
    (∀ e ∈ exampleAB.modelMetrics, 1 ≤ e.2.totalCalls) ∧
    getBestModel exampleAB TaskType.music =
      (firstMax (specRate exampleAB.modelMetrics)
        ((modelsByTask TaskType.music).filter
          (fun m => hasCall exampleAB.modelMetrics m))).getD
        ((modelsByTask TaskType.music).headD "") :=
  ⟨by decide,
    c1_getBestModel_best_rate.1 exampleAB TaskType.music (by decide)⟩

/-! ## C8: the low-performing-model scan criterion -/

/-- C8: once the alerting step is past its cold-start gate (at least 3
snapshots of history), the low-performing-model warning lists a provider
iff its stored metrics show at least 6 recorded calls and a success rate
`successCalls / totalCalls` strictly below 0.7. -/
theorem c8_low_performing_iff (s : EngineState) (p : String)
    (hlen : 3 ≤ s.snapshots.length) :
    p ∈ (analyseAndAdapt s).lowPerformingModels ↔
      ∃ me : ModelMetrics, (p, me) ∈ s.modelMetrics ∧ 6 ≤ me.totalCalls ∧
        (me.successCalls : ℚ) / (me.totalCalls : ℚ) < 7/10 := by
  have hrec : ¬ (s.snapshots.drop (s.snapshots.length - 6)).length < 3 := by
    rw [List.length_drop]
    omega
  have hwar : (analyseAndAdapt s).lowPerformingModels =
      lowPerfOf s.modelMetrics := by
    simp only [analyseAndAdapt]
    rw [if_neg hrec]
  rw [hwar]
  unfold lowPerfOf
  constructor
  · intro hp
    rcases List.mem_map.1 hp with ⟨e, he, rfl⟩
    rcases List.mem_filter.1 he with ⟨hmem, hpred⟩
    rw [Bool.and_eq_true, decide_eq_true_eq, decide_eq_true_eq] at hpred
    exact ⟨e.2, hmem, by omega, hpred.2⟩
  · rintro ⟨me, hmem, hcalls, hrate⟩
    apply List.mem_map.2
    refine ⟨(p, me), List.mem_filter.2 ⟨hmem, ?_⟩, rfl⟩
    rw [Bool.and_eq_true, decide_eq_true_eq, decide_eq_true_eq]
    constructor
    · show 5 < me.totalCalls
      omega
    · exact hrate

/-- Witness for C8 at the concrete state `stateThree` and provider
`flux-1` (6 calls, 3 successes). -/
theorem c8_witness :
    3 ≤ stateThree.snapshots.length ∧
    ("flux-1" ∈ (analyseAndAdapt stateThree).lowPerformingModels ↔
      ∃ me : ModelMetrics, ("flux-1", me) ∈ stateThree.modelMetrics ∧
        6 ≤ me.totalCalls ∧
        (me.successCalls : ℚ) / (me.totalCalls : ℚ) < 7/10) :=
  ⟨by decide, c8_low_performing_iff stateThree "flux-1" (by decide)⟩

/-! ## C9: alerting-step thresholds -/

theorem foldl_add_fin (l : List PerformanceSnapshot) :
    ∀ a : ℚ, (∀ sn ∈ l, sn.cpuUsage.isFin = true) →
      l.foldl (fun (x : JsNum) sn => x.add sn.cpuUsage) (JsNum.fin a) =
        JsNum.fin (a + (l.map (fun sn => sn.cpuUsage.toQ)).sum) := by
  induction l with
  | nil =>
      intro a _
      simp
  | cons sn rest ih =>
      intro a h
      have hsn : sn.cpuUsage.isFin = true := h sn (by simp)
      obtain ⟨q, hq⟩ : ∃ q, sn.cpuUsage = JsNum.fin q := by
        cases hc : sn.cpuUsage with
        | fin q => exact ⟨q, rfl⟩
        | posInf => rw [hc] at hsn; simp [JsNum.isFin] at hsn
        | negInf => rw [hc] at hsn; simp [JsNum.isFin] at hsn
        | nan => rw [hc] at hsn; simp [JsNum.isFin] at hsn
      have hstep : (JsNum.fin a).add sn.cpuUsage = JsNum.fin (a + q) := by
        rw [hq]
        rfl
      rw [List.foldl_cons, hstep,
        ih (a + q) (fun x hx => h x (List.mem_cons_of_mem _ hx)),
        List.map_cons, List.sum_cons, hq]
      have htoQ : (JsNum.fin q).toQ = q := rfl
      rw [htoQ]
      congr 1
      ring

theorem foldl_add_errorRate (l : List PerformanceSnapshot) :
    ∀ a : ℚ, l.foldl (fun (x : ℚ) sn => x + (sn.errorRate : ℚ)) a =
      a + (l.map (fun sn => (sn.errorRate : ℚ))).sum := by
  induction l with
  | nil =>
      intro a
      simp
  | cons sn rest ih =>
      intro a
      rw [List.foldl_cons, ih, List.map_cons, List.sum_cons]
      ring

/-- The record `analyseAndAdapt` produces once past the cold-start
gate. -/
theorem analyseAndAdapt_eq (s : EngineState)
    (hrec : ¬ (s.snapshots.drop (s.snapshots.length - 6)).length < 3) :
    analyseAndAdapt s =
      { highCPU := (((s.snapshots.drop (s.snapshots.length - 6)).foldl
            (fun (a : JsNum) sn => a.add sn.cpuUsage)
            (JsNum.fin 0)).divQ
            ((s.snapshots.drop (s.snapshots.length - 6)).length : ℚ)).gtB
            85,
        highMemory := ((jsDivQ
            ((((s.snapshots.drop
              (s.snapshots.length - 6)).getLastD
              defaultSnapshot).memoryUsedMB : ℚ))
            ((((s.snapshots.drop
              (s.snapshots.length - 6)).getLastD
              defaultSnapshot).memoryTotalMB : ℚ))).mul100).gtB 85,
        highErrorRate := decide ((5 : ℚ) <
            ((s.snapshots.drop (s.snapshots.length - 6)).foldl
              (fun (a : ℚ) sn => a + (sn.errorRate : ℚ)) 0) /
            ((s.snapshots.drop (s.snapshots.length - 6)).length : ℚ)),
        lowPerformingModels := lowPerfOf s.modelMetrics } := by
  simp only [analyseAndAdapt]
  rw [if_neg hrec]

/-- C9: with fewer than 3 stored snapshots the alerting step emits no
warning at all; with at least 3 (and well-defined inputs: finite recent
CPU readings and a positive total-memory figure on the latest snapshot)
it warns on CPU exactly when the mean recent `cpuUsage` exceeds 85, on
memory exactly when the latest snapshot's used-memory percentage
exceeds 85, and on errors exactly when the mean recent `errorRate`
exceeds 5. -/
theorem c9_alert_thresholds (s : EngineState)
    (hfin : ∀ sn ∈ recentOf s, sn.cpuUsage.isFin = true)
    (hmem : ∀ sn ∈ recentOf s, 0 < sn.memoryTotalMB) :
    (s.snapshots.length < 3 → analyseAndAdapt s = noWarnings) ∧
    (3 ≤ s.snapshots.length →
      ((analyseAndAdapt s).highCPU = true ↔ 85 < cpuMean s) ∧
      ((analyseAndAdapt s).highMemory = true ↔ 85 < memPct s) ∧
      ((analyseAndAdapt s).highErrorRate = true ↔ 5 < errMean s)) := by
  constructor
  · intro h3
    have hrec : (s.snapshots.drop (s.snapshots.length - 6)).length < 3 := by
      rw [List.length_drop]
      omega
    simp only [analyseAndAdapt]
    rw [if_pos hrec]
  · intro h3
    have hrec : ¬ (s.snapshots.drop
        (s.snapshots.length - 6)).length < 3 := by
      rw [List.length_drop]
      omega
    have hrecne : s.snapshots.drop (s.snapshots.length - 6) ≠ [] := by
      intro hnil
      rw [hnil] at hrec
      simp at hrec
    have hlenpos : (0:ℚ) <
        ((s.snapshots.drop (s.snapshots.length - 6)).length : ℚ) := by
      have h1 : 0 < (s.snapshots.drop (s.snapshots.length - 6)).length := by
        rw [List.length_drop]
        omega
      exact_mod_cast h1
    have hlenne : (((s.snapshots.drop
        (s.snapshots.length - 6)).length : ℚ)) ≠ 0 := ne_of_gt hlenpos
    rw [analyseAndAdapt_eq s hrec]
    refine ⟨?_, ?_, ?_⟩
    · rw [foldl_add_fin (s.snapshots.drop (s.snapshots.length - 6)) 0 hfin]
      have hdiv : (JsNum.fin (0 +
          ((s.snapshots.drop (s.snapshots.length - 6)).map
            (fun sn => sn.cpuUsage.toQ)).sum)).divQ
            ((s.snapshots.drop (s.snapshots.length - 6)).length : ℚ) =
          JsNum.fin ((0 +
            ((s.snapshots.drop (s.snapshots.length - 6)).map
              (fun sn => sn.cpuUsage.toQ)).sum) /
            ((s.snapshots.drop (s.snapshots.length - 6)).length : ℚ)) := by
        show jsDivQ _ _ = _
        unfold jsDivQ
        rw [if_neg hlenne]
      rw [hdiv]
      show decide (85 < (0 +
          ((s.snapshots.drop (s.snapshots.length - 6)).map
            (fun sn => sn.cpuUsage.toQ)).sum) /
          ((s.snapshots.drop (s.snapshots.length - 6)).length : ℚ)) =
          true ↔ 85 < cpuMean s
      rw [decide_eq_true_eq]
      unfold cpuMean recentOf
      rw [zero_add]
    · have hlast : (s.snapshots.drop
          (s.snapshots.length - 6)).getLastD defaultSnapshot ∈
          s.snapshots.drop (s.snapshots.length - 6) := by
        rw [List.getLastD_eq_getLast? defaultSnapshot
          (s.snapshots.drop (s.snapshots.length - 6)),
          List.getLast?_eq_getLast
            (s.snapshots.drop (s.snapshots.length - 6)) hrecne]
        exact List.getLast_mem hrecne
      have htot : 0 < ((s.snapshots.drop
          (s.snapshots.length - 6)).getLastD
          defaultSnapshot).memoryTotalMB :=
        hmem ((s.snapshots.drop
          (s.snapshots.length - 6)).getLastD defaultSnapshot) hlast
      have htotQ : ((((s.snapshots.drop
          (s.snapshots.length - 6)).getLastD
          defaultSnapshot).memoryTotalMB : ℚ)) ≠ 0 :=
        Int.cast_ne_zero.2 (ne_of_gt htot)
      have hdiv : jsDivQ
          ((((s.snapshots.drop (s.snapshots.length - 6)).getLastD
            defaultSnapshot).memoryUsedMB : ℚ))
          ((((s.snapshots.drop (s.snapshots.length - 6)).getLastD
            defaultSnapshot).memoryTotalMB : ℚ)) =
          JsNum.fin
            (((((s.snapshots.drop (s.snapshots.length - 6)).getLastD
              defaultSnapshot).memoryUsedMB : ℚ)) /
              ((((s.snapshots.drop (s.snapshots.length - 6)).getLastD
                defaultSnapshot).memoryTotalMB : ℚ))) := by
        unfold jsDivQ
        rw [if_neg htotQ]
      rw [hdiv]
      show decide (85 <
          (((((s.snapshots.drop (s.snapshots.length - 6)).getLastD
            defaultSnapshot).memoryUsedMB : ℚ)) /
            ((((s.snapshots.drop (s.snapshots.length - 6)).getLastD
              defaultSnapshot).memoryTotalMB : ℚ))) * 100) =
          true ↔ 85 < memPct s
      rw [decide_eq_true_eq]
      unfold memPct recentOf
      rfl
    · rw [foldl_add_errorRate (s.snapshots.drop (s.snapshots.length - 6)) 0]
      rw [decide_eq_true_eq]
      unfold errMean recentOf
      rw [zero_add]

/-- Witness for C9 at the concrete state `stateThree` (three snapshots,
CPU 50%, 1 of 2 MB memory used, no errors). -/
theorem c9_witness :
    (∀ sn ∈ recentOf stateThree, sn.cpuUsage.isFin = true) ∧
    (∀ sn ∈ recentOf stateThree, 0 < sn.memoryTotalMB) ∧
    ((stateThree.snapshots.length < 3 →
        analyseAndAdapt stateThree = noWarnings) ∧
      (3 ≤ stateThree.snapshots.length →
        ((analyseAndAdapt stateThree).highCPU = true ↔
          85 < cpuMean stateThree) ∧
        ((analyseAndAdapt stateThree).highMemory = true ↔
          85 < memPct stateThree) ∧
        ((analyseAndAdapt stateThree).highErrorRate = true ↔
          5 < errMean stateThree))) :=
  ⟨by decide, by decide,
    c9_alert_thresholds stateThree (by decide) (by decide)⟩

end SelfPerf
